import Mathlib

/-!
Shallow embedding of st0nie/mortis-rs.

The repository has four source files:
* `src/main.rs` — the wired binary: an axum `handler` that, for every HTTP
  request, tests the peer address against the `mortis-whitelist` ipset,
  deletes it when present, and re-adds it; `setup_iptables` /
  `clean_iptables` installing and removing the `MORTIS` chain;
  `shutdown_signal` running the teardown on termination.
* `src/cleaner.rs` — a sweeper: every 60 s it collects whitelist entries
  with `instant.elapsed().as_secs() > 300`, removes each from the store and
  then from the ipset inside a `try_for_each` (which stops at the first
  failing external delete), ignoring the tick's result in the loop.
* `src/state.rs` — `AppState` holding the `whitelist : HashMap<IpAddr, Instant>`
  and the ipset session.
* `src/firewall.rs` — an alternative rule set (chain `mortis`) where
  allow-list members are capped at 150/sec instead of being exempt.

Addresses are modelled as `Nat`, timestamps as `Nat` seconds, the external
ipset as a duplicate-free-by-construction `List Nat`, and fallible calls to
the external subsystem through an explicit failure oracle.  Every external
call that is issued (successful or not) is recorded in a trace.
-/

/-- A call issued to the external ipset membership set
(`Session::test` / `Session::del` / `Session::add` in the source). -/
inductive IpsetCall
| test (ip : Nat)
| del (ip : Nat)
| add (ip : Nat)
deriving DecidableEq

/-- Failure oracle that makes every external ipset call succeed. -/
def noFail : IpsetCall → Bool := fun _ => false

/-- `Session::test`: membership in the external set. -/
def ipset_test (members : List Nat) (ip : Nat) : Bool :=
  members.contains ip

/-- `Session::del`: remove an address from the external set. -/
def ipset_del (members : List Nat) (ip : Nat) : List Nat :=
  members.filter (fun x => x ≠ ip)

/-- `Session::add`: insert an address into the external set
(`forceadd` is set at creation; adding keeps a set, not a multiset). -/
def ipset_add (members : List Nat) (ip : Nat) : List Nat :=
  if members.contains ip then members else ip :: members

/-- The handler's response value (`src/main.rs` lines 53–62): a temporary
redirect when a path key is present, otherwise the `ip:{} path:{}` text. -/
inductive HandlerResponse
| redirect (key : String)
| text (ip : Nat) (path : String)
deriving DecidableEq

/-- Outcome of one `handler` invocation: the HTTP-level result (`Err` maps
to the 500 `AppError` response), the external set afterwards, and the trace
of external calls issued. -/
structure HandlerOut where
  result : Except Unit HandlerResponse
  ipset : List Nat
  calls : List IpsetCall

/-- The response constructed on the success path of `handler`: with a path
key it is `Redirect::temporary(key)`, without one the text body whose path
component is `key.unwrap_or("/")`, i.e. `"/"`. -/
def respond (key : Option String) (ip : Nat) : HandlerResponse :=
  match key with
  | some k => HandlerResponse.redirect k
  | none => HandlerResponse.text ip "/"

/-- `handler` (`src/main.rs` lines 44–63), with each external call guarded
by the failure oracle exactly where the source applies `?`:

```rust
if ipset_session.lock().await.test(addr.ip())? {
    ipset_session.lock().await.del(addr.ip())?;
}
ipset_session.lock().await.add(addr.ip(), &[])?;
```

A failing call leaves the external set as it was and aborts the request
with an error result; the calls already issued stay in the trace. -/
def handler (fail : IpsetCall → Bool) (key : Option String) (ip : Nat)
    (members : List Nat) : HandlerOut :=
  if fail (IpsetCall.test ip) then
    ⟨Except.error (), members, [IpsetCall.test ip]⟩
  else if ipset_test members ip then
    if fail (IpsetCall.del ip) then
      ⟨Except.error (), members, [IpsetCall.test ip, IpsetCall.del ip]⟩
    else
      let m1 := ipset_del members ip
      if fail (IpsetCall.add ip) then
        ⟨Except.error (), m1, [IpsetCall.test ip, IpsetCall.del ip, IpsetCall.add ip]⟩
      else
        ⟨Except.ok (respond key ip), ipset_add m1 ip,
          [IpsetCall.test ip, IpsetCall.del ip, IpsetCall.add ip]⟩
  else
    if fail (IpsetCall.add ip) then
      ⟨Except.error (), members, [IpsetCall.test ip, IpsetCall.add ip]⟩
    else
      ⟨Except.ok (respond key ip), ipset_add members ip,
        [IpsetCall.test ip, IpsetCall.add ip]⟩

/-- Whether a handler invocation produced a success response
(anything other than the `AppError` 500 path). -/
def is_admitted (o : HandlerOut) : Bool :=
  match o.result with
  | Except.ok _ => true
  | Except.error _ => false

/-- Number of `add` calls issued for a given address in a trace. -/
def add_count (ip : Nat) : List IpsetCall → Nat
| [] => 0
| c :: rest => (if c = IpsetCall.add ip then 1 else 0) + add_count ip rest

/-- An inbound trust-signal event as the specification describes it: a
client address together with an externally derived trusted classification.
The source `handler` consumes only the path key and the peer address
(`ConnectInfo(addr)`); it has no input corresponding to the classification. -/
structure TrustSignal where
  addr : Nat
  trusted : Bool

/-- Processing of an inbound trust-signal event by the program: `handler`
applied to the event's address.  The `trusted` field has no counterpart in
the source and is (faithfully) ignored. -/
def process_signal (fail : IpsetCall → Bool) (key : Option String)
    (sig : TrustSignal) (members : List Nat) : HandlerOut :=
  handler fail key sig.addr members

/-- `N` successive trusted signals for the same address, each processed by
`handler` with all external calls succeeding, threading the external set
and concatenating the call traces. -/
def repeat_signals (key : Option String) (ip : Nat) :
    Nat → List Nat → List IpsetCall × List Nat
| 0, members => ([], members)
| n + 1, members =>
    let o := handler noFail key ip members
    let r := repeat_signals key ip n o.ipset
    (o.calls ++ r.1, r.2)

/-- The shared mutable state of the whole program: the in-process
allow-list store (`AppState.whitelist` in `src/state.rs`, a map from
address to last-seen instant, modelled as an association list) and the
external ipset membership set. -/
structure SysState where
  whitelist : List (Nat × Nat)
  ipset : List Nat
deriving DecidableEq

/-- A `handler` invocation as a transition on the whole program state: the
handler reads and writes only the external set and never touches the
allow-list store (`src/main.rs` lines 44–63 mention no whitelist). -/
def sys_handler (fail : IpsetCall → Bool) (key : Option String) (ip : Nat)
    (s : SysState) : SysState :=
  { s with ipset := (handler fail key ip s.ipset).ipset }

namespace Cleaner

/-- The addresses the sweep tick collects into `to_remove`
(`src/cleaner.rs` lines 24–28): whitelist entries whose
`instant.elapsed().as_secs() > 300`, with elapsed time `now - lastSeen`. -/
def stale_ips (now : Nat) (whitelist : List (Nat × Nat)) : List Nat :=
  (whitelist.filter (fun p => 300 < now - p.2)).map Prod.fst

/-- The `try_for_each` over `to_remove` (`src/cleaner.rs` lines 30–34):
for each collected address, first `whitelist.remove(ip)`, then
`ipset.del(*ip)?` — a failing external delete short-circuits, leaving the
remaining addresses unprocessed.  Returns the state, the trace of
attempted external deletes, and whether the loop ran to completion. -/
def remove_loop (fail : Nat → Bool) : List Nat → SysState → SysState × List Nat × Bool
| [], s => (s, [], true)
| ip :: rest, s =>
    let s1 : SysState := { s with whitelist := s.whitelist.filter (fun p => p.1 ≠ ip) }
    if fail ip then (s1, [ip], false)
    else
      let s2 : SysState := { s1 with ipset := ipset_del s1.ipset ip }
      let r := remove_loop fail rest s2
      (r.1, ip :: r.2.1, r.2.2)

/-- `clean_ipset` in `src/cleaner.rs`: one sweep tick, evaluated at
monotonic time `now`. -/
def clean_ipset (fail : Nat → Bool) (now : Nat) (s : SysState) :
    SysState × List Nat × Bool :=
  remove_loop fail (stale_ips now s.whitelist) s

/-- The state after one sweep tick (the tick's `Result` is discarded by
`let _ = clean_ipset(state.clone()).await;` in `task`). -/
def clean_state (fail : Nat → Bool) (now : Nat) (s : SysState) : SysState :=
  (clean_ipset fail now s).1

/-- The sweeper loop `task` (`src/cleaner.rs` lines 8–15) run over a list
of tick times: each tick applies `clean_ipset` and ignores its result, so
a failing tick never stops the loop. -/
def task_ticks (fail : Nat → Nat → Bool) (nows : List Nat) (s : SysState) : SysState :=
  nows.foldl (fun st now => clean_state (fail now) now st) s

/-- The sleep between sweeper ticks: `tokio::time::sleep(Duration::from_secs(60))`. -/
def sweep_sleep_secs : Nat := 60

/-- `task` run for `k` ticks from process start: tick `i` fires at time
`60 * (i+1)` seconds. -/
def task_run (fail : Nat → Nat → Bool) (k : Nat) (s : SysState) : SysState :=
  task_ticks fail ((List.range k).map (fun i => sweep_sleep_secs * (i + 1))) s

end Cleaner

/-- Reachable program states: from the initial state (empty store, empty
external set — `setup_ipset` creates the set empty and the `HashMap`
starts empty) by any interleaving of completed `handler` invocations and
sweep ticks, each with an arbitrary failure oracle. -/
inductive Reachable : SysState → Prop
| init : Reachable ⟨[], []⟩
| handler_step (s : SysState) (fail : IpsetCall → Bool) (key : Option String)
    (ip : Nat) : Reachable s → Reachable (sys_handler fail key ip s)
| sweep_step (s : SysState) (fail : Nat → Bool) (now : Nat) :
    Reachable s → Reachable (Cleaner.clean_state fail now s)

/-! ### The iptables rule set -/

/-- A `--match hashlimit` clause, field per CLI flag:
`above` distinguishes `--hashlimit-above r/sec` (matches flows exceeding
the rate) from plain `--hashlimit r/sec` (matches flows conforming to it);
`rate`, `burst`, `mode`, `hname` carry `--hashlimit`/`--hashlimit-above`,
`--hashlimit-burst`, `--hashlimit-mode`, `--hashlimit-name`. -/
structure Hashlimit where
  above : Bool
  rate : Nat
  burst : Nat
  mode : String
  hname : String
deriving DecidableEq

/-- A rule target (`-j ...`). -/
inductive Target
| drop
| accept
| ret
| jump (chain : String)
deriving DecidableEq

/-- A structured iptables rule, one field per match clause of the rule
strings in the source: `proto` for `-p`, `sports` for
`--match multiport --sports`, `dports` for `--match multiport --dports`
(kept as the CLI string, as the source does), `set_match` for
`--match set --match-set <name> src`, `hlimit` for `--match hashlimit`. -/
structure Rule where
  proto : Option String := none
  sports : List Nat := []
  dports : Option String := none
  set_match : Option String := none
  hlimit : Option Hashlimit := none
  target : Target
deriving DecidableEq

/-- A call to the external packet-filter rule interface or to the
set-lifecycle interface (`iptables` crate methods, `Session::flush`,
`Session::destroy`). -/
inductive FwCall
| new_chain (table chain : String)
| append (table chain : String) (r : Rule)
| insert (table chain : String) (r : Rule) (pos : Nat)
| delete (table chain : String) (r : Rule)
| flush_chain (table chain : String)
| delete_chain (table chain : String)
| set_flush
| set_destroy
deriving DecidableEq

/-- `const IPTABLES_CHAIN: &str = "MORTIS";` in `src/main.rs`. -/
def IPTABLES_CHAIN : String := "MORTIS"

/-- `const MORTIS_IPSET: &str = "mortis-whitelist";`. -/
def MORTIS_IPSET : String := "mortis-whitelist"

/-- The first rule appended to the dedicated chain in both `src/main.rs`
and `src/firewall.rs`:
`-p udp --match multiport --sports 123,53,161,3702,19 -j DROP`. -/
def sport_drop_rule : Rule :=
  { proto := some "udp", sports := [123, 53, 161, 3702, 19], target := Target.drop }

/-- The jump rule inserted into `INPUT`:
`-p udp --match multiport --dports {port} -j {chain}`. -/
def jump_rule (protected_port chain : String) : Rule :=
  { proto := some "udp", dports := some protected_port, target := Target.jump chain }

/-- `setup_iptables` in `src/main.rs` (lines 105–140) as the ordered list
of calls it issues to the packet-filter rule interface. -/
def setup_iptables (protected_port : String) : List FwCall :=
  [ FwCall.new_chain "filter" IPTABLES_CHAIN,
    FwCall.append "filter" IPTABLES_CHAIN sport_drop_rule,
    FwCall.append "filter" IPTABLES_CHAIN
      { set_match := some MORTIS_IPSET, target := Target.accept },
    FwCall.append "filter" IPTABLES_CHAIN
      { hlimit := some ⟨false, 5, 10, "srcip,dstport", "main"⟩, target := Target.ret },
    FwCall.append "filter" IPTABLES_CHAIN { target := Target.drop },
    FwCall.insert "filter" "INPUT" (jump_rule protected_port IPTABLES_CHAIN) 1 ]

namespace Firewall

/-- `const IPTABLES_CHAIN: &str = "mortis";` in `src/firewall.rs`. -/
def IPTABLES_CHAIN : String := "mortis"

/-- `setup_iptables` in `src/firewall.rs` (lines 29–70) as the ordered
list of calls it issues. -/
def setup_iptables (protected_port : String) : List FwCall :=
  [ FwCall.new_chain "filter" IPTABLES_CHAIN,
    FwCall.append "filter" IPTABLES_CHAIN sport_drop_rule,
    FwCall.append "filter" IPTABLES_CHAIN
      { set_match := some MORTIS_IPSET,
        hlimit := some ⟨true, 150, 10, "srcip,dstport", "mortis-white"⟩,
        target := Target.drop },
    FwCall.append "filter" IPTABLES_CHAIN
      { set_match := some MORTIS_IPSET, target := Target.ret },
    FwCall.append "filter" IPTABLES_CHAIN
      { hlimit := some ⟨true, 5, 10, "srcip,dstport", "mortis"⟩, target := Target.drop },
    FwCall.append "filter" IPTABLES_CHAIN { target := Target.ret },
    FwCall.insert "filter" "INPUT" (jump_rule protected_port IPTABLES_CHAIN) 1 ]

end Firewall

/-- The rules a setup trace appends to a given chain, in order. -/
def chain_rules (chain : String) (calls : List FwCall) : List Rule :=
  calls.filterMap (fun c =>
    match c with
    | FwCall.append _ ch r => if ch = chain then some r else none
    | _ => none)

/-- The insertions a setup trace makes into a given chain. -/
def chain_inserts (chain : String) (calls : List FwCall) : List (Rule × Nat) :=
  calls.filterMap (fun c =>
    match c with
    | FwCall.insert _ ch r pos => if ch = chain then some (r, pos) else none
    | _ => none)

/-- An abstract packet as the rule matches see it: whether it is UDP, its
source port, whether its source address is currently in the
`mortis-whitelist` set, and the current rate of its
(source address, destination port) hashlimit bucket in packets/sec. -/
structure Packet where
  udp : Bool
  src_port : Nat
  member : Bool
  rate : Nat

/-- Whether a rule's match clauses all hold for a packet.  `--hashlimit-above r`
matches when the bucket rate exceeds `r`; plain `--hashlimit r` matches
while the bucket conforms to the limit.  `--match multiport --dports` is
only used on the jump rule, whose chain is entered by construction, so it
is not interpreted here. -/
def rule_matches (p : Packet) (r : Rule) : Bool :=
  (match r.proto with
   | some pr => pr = "udp" && p.udp
   | none => true) &&
  (r.sports.isEmpty || r.sports.contains p.src_port) &&
  (match r.set_match with
   | some _ => p.member
   | none => true) &&
  (match r.hlimit with
   | some h => if h.above then decide (h.rate < p.rate) else decide (p.rate ≤ h.rate)
   | none => true)

/-- First-match-wins evaluation of a chain; a user-defined chain with no
matching rule returns to the caller. -/
def eval_chain (rules : List Rule) (p : Packet) : Target :=
  match rules with
  | [] => Target.ret
  | r :: rest => if rule_matches p r then r.target else eval_chain rest p

/-! ### Teardown -/

/-- Failure oracle making every packet-filter call succeed. -/
def noFailFw : FwCall → Bool := fun _ => false

/-- Execute a list of external calls where every call's result is
immediately `.unwrap()`ed (the `src/main.rs` teardown style): the first
failing call panics, so later calls are never issued.  Returns the trace
of issued calls and `true` iff no panic occurred. -/
def run_calls (fail : FwCall → Bool) : List FwCall → List FwCall × Bool
| [] => ([], true)
| c :: rest =>
    if fail c then ([c], false)
    else
      let r := run_calls fail rest
      (c :: r.1, r.2)

/-- The calls `clean_iptables` (`src/main.rs` lines 142–156) issues, in
order: delete the jump rule from `INPUT`, flush the dedicated chain,
delete the dedicated chain. -/
def clean_iptables_calls (protected_port : String) : List FwCall :=
  [ FwCall.delete "filter" "INPUT" (jump_rule protected_port IPTABLES_CHAIN),
    FwCall.flush_chain "filter" IPTABLES_CHAIN,
    FwCall.delete_chain "filter" IPTABLES_CHAIN ]

/-- The calls `clean_ipset` (`src/main.rs` lines 99–103) issues:
`session.flush()` then `session.destroy()`. -/
def clean_ipset_calls : List FwCall :=
  [FwCall.set_flush, FwCall.set_destroy]

/-- The whole teardown sequence of `shutdown_signal`. -/
def teardown_calls (protected_port : String) : List FwCall :=
  clean_iptables_calls protected_port ++ clean_ipset_calls

/-- The teardown run by `shutdown_signal` (`src/main.rs` lines 180–189):
`clean_iptables(ipt, port).unwrap()` — whose every step is itself
`.unwrap()`ed — then `clean_ipset(..).unwrap()`, whose steps use `?` but
whose error is unwrapped by the caller.  In every case the first failing
step stops the remaining steps and panics the shutdown path. -/
def shutdown_teardown (fail : FwCall → Bool) (protected_port : String) :
    List FwCall × Bool :=
  let r1 := run_calls fail (clean_iptables_calls protected_port)
  if r1.2 then
    let r2 := run_calls fail clean_ipset_calls
    (r1.1 ++ r2.1, r2.2)
  else (r1.1, false)

/-! ### Concurrent handler invocations

In `handler` each external call is guarded by its own
`ipset_session.lock().await`: the mutex is acquired for a single call and
released before the next one, so two concurrent invocations can interleave
at call granularity.  The model below runs two handler tasks for the same
address as an interleaving of per-call atomic steps (no external failures,
matching the success path of the claim). -/

/-- The control point of one handler task between its lock-protected
external calls. -/
inductive TaskPhase
| start
| after_test (was_member : Bool)
| after_del
| done
deriving DecidableEq

/-- The state of two concurrent handler tasks for the same address plus
the shared external set and the global call trace. -/
structure ConcState where
  p1 : TaskPhase
  p2 : TaskPhase
  members : List Nat
  calls : List IpsetCall
deriving DecidableEq

/-- One lock-protected step of a handler task: `test`, then `del` when the
test saw the address, then `add`.  A `done` task takes no step. -/
def task_step (ip : Nat) (ph : TaskPhase) (members : List Nat) :
    TaskPhase × List Nat × List IpsetCall :=
  match ph with
  | TaskPhase.start =>
      (TaskPhase.after_test (ipset_test members ip), members, [IpsetCall.test ip])
  | TaskPhase.after_test true =>
      (TaskPhase.after_del, ipset_del members ip, [IpsetCall.del ip])
  | TaskPhase.after_test false =>
      (TaskPhase.done, ipset_add members ip, [IpsetCall.add ip])
  | TaskPhase.after_del =>
      (TaskPhase.done, ipset_add members ip, [IpsetCall.add ip])
  | TaskPhase.done => (TaskPhase.done, members, [])

/-- One scheduler step: `true` lets task 1 take its next lock-protected
call, `false` lets task 2. -/
def conc_step (ip : Nat) (s : ConcState) (pick1 : Bool) : ConcState :=
  if pick1 then
    let r := task_step ip s.p1 s.members
    ⟨r.1, s.p2, r.2.1, s.calls ++ r.2.2⟩
  else
    let r := task_step ip s.p2 s.members
    ⟨s.p1, r.1, r.2.1, s.calls ++ r.2.2⟩

/-- Run two concurrent handler tasks for address `ip` under a schedule. -/
def run_schedule (ip : Nat) (sched : List Bool) : ConcState :=
  sched.foldl (conc_step ip) ⟨TaskPhase.start, TaskPhase.start, [], []⟩

/-! ### Helper lemmas -/

theorem mem_ipset_add (m : List Nat) (ip : Nat) : ip ∈ ipset_add m ip := by
  unfold ipset_add
  split
  · next h => exact List.mem_of_elem_eq_true h
  · exact List.mem_cons_self _ _

theorem ipset_test_add (m : List Nat) (ip : Nat) : ipset_test (ipset_add m ip) ip = true := by
  unfold ipset_test
  exact List.elem_eq_true_of_mem (mem_ipset_add m ip)

theorem add_count_append (ip : Nat) (l1 l2 : List IpsetCall) :
    add_count ip (l1 ++ l2) = add_count ip l1 + add_count ip l2 := by
  induction l1 with
  | nil => simp [add_count]
  | cons c rest ih => simp [add_count, ih]; omega

theorem handler_member_noFail (key : Option String) (ip : Nat) (members : List Nat)
    (h : ipset_test members ip = true) :
    handler noFail key ip members
      = ⟨Except.ok (respond key ip), ipset_add (ipset_del members ip) ip,
         [IpsetCall.test ip, IpsetCall.del ip, IpsetCall.add ip]⟩ := by
  unfold handler noFail
  simp [h]

theorem handler_fresh_noFail (key : Option String) (ip : Nat) (members : List Nat)
    (h : ipset_test members ip = false) :
    handler noFail key ip members
      = ⟨Except.ok (respond key ip), ipset_add members ip,
         [IpsetCall.test ip, IpsetCall.add ip]⟩ := by
  unfold handler noFail
  simp [h]

theorem repeat_signals_count_of_member (key : Option String) (ip : Nat) :
    ∀ (n : Nat) (members : List Nat), ipset_test members ip = true →
      add_count ip (repeat_signals key ip n members).1 = n := by
  intro n
  induction n with
  | zero => intro members _; simp [repeat_signals, add_count]
  | succ n ih =>
      intro members h
      unfold repeat_signals
      rw [handler_member_noFail key ip members h]
      rw [add_count_append]
      rw [ih _ (ipset_test_add _ ip)]
      simp [add_count]
      omega

theorem handler_ok_spec (fail : IpsetCall → Bool) (key : Option String) (ip : Nat)
    (members : List Nat) (h : is_admitted (handler fail key ip members) = true) :
    ip ∈ (handler fail key ip members).ipset
    ∧ add_count ip (handler fail key ip members).calls = 1
    ∧ (ipset_test members ip = true →
        (handler fail key ip members).calls
          = [IpsetCall.test ip, IpsetCall.del ip, IpsetCall.add ip])
    ∧ (ipset_test members ip = false →
        (handler fail key ip members).calls = [IpsetCall.test ip, IpsetCall.add ip])
    ∧ (handler fail key ip members).ipset = (handler fail none ip members).ipset := by
  unfold handler at h ⊢
  by_cases h1 : fail (IpsetCall.test ip)
  · simp [h1, is_admitted] at h
  · by_cases h2 : ipset_test members ip
    · by_cases h3 : fail (IpsetCall.del ip)
      · simp [h1, h2, h3, is_admitted] at h
      · by_cases h4 : fail (IpsetCall.add ip)
        · simp [h1, h2, h3, h4, is_admitted] at h
        · simp [h1, h2, h3, h4, add_count, mem_ipset_add]
    · by_cases h4 : fail (IpsetCall.add ip)
      · simp [h1, h2, h4, is_admitted] at h
      · simp [h1, h2, h4, add_count, mem_ipset_add]

/-! ### Claim theorems -/

/-- Claim C10 (confirmed): whenever `handler` returns a success response,
the peer address is a member of the external set at return; the handler
issues exactly one external `add` for the address, independent of the
request path, and when the address was already present the `add` is
preceded by the `del` (remove-then-re-add). -/
theorem handler_success_adds (fail : IpsetCall → Bool) (key : Option String) (ip : Nat)
    (members : List Nat) (h : is_admitted (handler fail key ip members) = true) :
    ip ∈ (handler fail key ip members).ipset
    ∧ add_count ip (handler fail key ip members).calls = 1
    ∧ (ipset_test members ip = true →
        (handler fail key ip members).calls
          = [IpsetCall.test ip, IpsetCall.del ip, IpsetCall.add ip])
    ∧ (ipset_test members ip = false →
        (handler fail key ip members).calls = [IpsetCall.test ip, IpsetCall.add ip])
    ∧ (handler fail key ip members).ipset = (handler fail none ip members).ipset :=
  handler_ok_spec fail key ip members h

/-- Witness for C10 at a concrete input. -/
theorem handler_success_adds_witness :
    is_admitted (handler noFail none 7 []) = true
    ∧ 7 ∈ (handler noFail none 7 []).ipset
    ∧ add_count 7 (handler noFail none 7 []).calls = 1 :=
  ⟨by decide, (handler_success_adds noFail none 7 [] (by decide)).1,
    (handler_success_adds noFail none 7 [] (by decide)).2.1⟩

/-- Claim C2 counterexample: an inbound event classified untrusted is
still admitted — the handler issues the external `test` and `add` calls,
inserts the address into the external set, and returns a success response
instead of a rejection. -/
theorem untrusted_signal_still_admitted_cex :
    is_admitted (process_signal noFail none ⟨5, false⟩ []) = true
    ∧ (process_signal noFail none ⟨5, false⟩ []).calls = [IpsetCall.test 5, IpsetCall.add 5]
    ∧ (process_signal noFail none ⟨5, false⟩ []).ipset = [5] := by
  decide

/-- Claim C2 amended: the handler's behaviour is identical for trusted and
untrusted classifications (it has no trust input), and when the external
calls succeed the caller always observes an admission outcome together
with at least one external call — there is no rejection branch. -/
theorem handler_ignores_trust_classification :
    (∀ (fail : IpsetCall → Bool) (key : Option String) (a : Nat) (members : List Nat),
      process_signal fail key ⟨a, false⟩ members = process_signal fail key ⟨a, true⟩ members)
    ∧ ∀ (key : Option String) (a : Nat) (members : List Nat),
        is_admitted (process_signal noFail key ⟨a, false⟩ members) = true
        ∧ (process_signal noFail key ⟨a, false⟩ members).calls ≠ [] := by
  refine ⟨fun _ _ _ _ => rfl, fun key a members => ?_⟩
  by_cases h : ipset_test members a
  · rw [show process_signal noFail key ⟨a, false⟩ members = handler noFail key a members from rfl,
      handler_member_noFail key a members h]
    exact ⟨rfl, by simp⟩
  · rw [show process_signal noFail key ⟨a, false⟩ members = handler noFail key a members from rfl,
      handler_fresh_noFail key a members (by simpa using h)]
    exact ⟨rfl, by simp⟩

/-- Claim C3 counterexample: admit address 5 and then send one more
trusted signal for it: the second signal issues an external `del` (a
membership mutation) and across the two signals the external `add` call
count for the address is 2, not 1. -/
theorem refresh_triggers_external_mutations_cex :
    add_count 5 (repeat_signals none 5 2 []).1 = 2
    ∧ IpsetCall.del 5 ∈ (handler noFail none 5 (handler noFail none 5 []).ipset).calls := by
  decide

/-- Claim C3 amended: the program keeps no `lastSeen` store and applies no
TTL gate: every further signal for an address present in the external set
performs one external `del` followed by one external `add`, so across `n`
such refreshes the external `add` call count for the address is `n`,
growing linearly instead of staying at 1. -/
theorem refresh_performs_del_add (key : Option String) (ip : Nat) (members : List Nat)
    (h : ipset_test members ip = true) (n : Nat) :
    (handler noFail key ip members).calls
      = [IpsetCall.test ip, IpsetCall.del ip, IpsetCall.add ip]
    ∧ add_count ip (repeat_signals key ip n members).1 = n := by
  constructor
  · rw [handler_member_noFail key ip members h]
  · exact repeat_signals_count_of_member key ip n members h

/-- Witness for the amended C3 at a concrete input. -/
theorem refresh_performs_del_add_witness :
    ipset_test [5] 5 = true
    ∧ (handler noFail none 5 [5]).calls = [IpsetCall.test 5, IpsetCall.del 5, IpsetCall.add 5]
    ∧ add_count 5 (repeat_signals none 5 3 [5]).1 = 3 :=
  ⟨by decide, (refresh_performs_del_add none 5 [5] (by decide) 3).1,
    (refresh_performs_del_add none 5 [5] (by decide) 3).2⟩

/-- Claim C4 counterexample: after address 5 has been admitted, a further
trusted signal performs the `del`-then-`add` pair, but it does not leave
the address "present with a fresh `lastSeen` timestamp": the allow-list
store has no entry for the address at all — the program never writes one. -/
theorem readmission_no_fresh_lastseen_cex :
    (sys_handler noFail none 5 ⟨[], []⟩).ipset = [5]
    ∧ (handler noFail none 5 [5]).calls = [IpsetCall.test 5, IpsetCall.del 5, IpsetCall.add 5]
    ∧ (sys_handler noFail none 5 (sys_handler noFail none 5 ⟨[], []⟩)).whitelist = []
    ∧ 5 ∈ (sys_handler noFail none 5 (sys_handler noFail none 5 ⟨[], []⟩)).ipset := by
  refine ⟨by decide, by decide, rfl, by decide⟩

/-- Claim C4 amended: for every address currently a member of the external
set, a successful further signal issues exactly one external `del`
followed by exactly one external `add` and leaves the address a member;
the program applies this to every present address without any TTL
condition, and the allow-list store (which it never writes) is untouched,
so no `lastSeen` timestamp results. -/
theorem present_address_del_then_add (fail : IpsetCall → Bool) (key : Option String)
    (ip : Nat) (members : List Nat) (hmem : ipset_test members ip = true)
    (hok : is_admitted (handler fail key ip members) = true) :
    (handler fail key ip members).calls
      = [IpsetCall.test ip, IpsetCall.del ip, IpsetCall.add ip]
    ∧ ip ∈ (handler fail key ip members).ipset
    ∧ ∀ wl : List (Nat × Nat), (sys_handler fail key ip ⟨wl, members⟩).whitelist = wl := by
  refine ⟨(handler_ok_spec fail key ip members hok).2.2.1 hmem,
    (handler_ok_spec fail key ip members hok).1, fun wl => rfl⟩

/-- Witness for the amended C4 at a concrete input. -/
theorem present_address_del_then_add_witness :
    ipset_test [9] 9 = true
    ∧ is_admitted (handler noFail none 9 [9]) = true
    ∧ (handler noFail none 9 [9]).calls = [IpsetCall.test 9, IpsetCall.del 9, IpsetCall.add 9] :=
  ⟨by decide, by decide,
    (present_address_del_then_add noFail none 9 [9] (by decide) (by decide)).1⟩

/-- Claim C1 counterexample: one completed, fully successful admission
from the initial state reaches a state in which address 5 is a member of
the external set but is not a key of the allow-list store — the claimed
equivalence fails right after the operation. -/
theorem store_set_equiv_fails_after_admission_cex :
    Reachable (sys_handler noFail none 5 ⟨[], []⟩)
    ∧ (sys_handler noFail none 5 ⟨[], []⟩).ipset = [5]
    ∧ (sys_handler noFail none 5 ⟨[], []⟩).whitelist = []
    ∧ ¬((5 ∈ (sys_handler noFail none 5 ⟨[], []⟩).whitelist.map Prod.fst)
        ↔ 5 ∈ (sys_handler noFail none 5 ⟨[], []⟩).ipset) :=
  ⟨Reachable.handler_step _ noFail none 5 Reachable.init, by decide, rfl, by decide⟩

/-- Claim C1 amended: in every reachable state the allow-list store is
empty — no operation of the program ever writes it — so only the inclusion
"key of the store → member of the external set" holds, while the claimed
equivalence fails after every successful admission (the external set is
non-empty but the store is not). -/
theorem reachable_store_empty (s : SysState) (h : Reachable s) :
    s.whitelist = [] ∧ ∀ ip t : Nat, (ip, t) ∈ s.whitelist → ip ∈ s.ipset := by
  induction h with
  | init =>
      exact ⟨rfl, fun ip t hm => absurd hm (List.not_mem_nil _)⟩
  | handler_step s fail key ip _ ih =>
      refine ⟨?_, ?_⟩
      · show s.whitelist = []
        exact ih.1
      · intro ip' t hm
        rw [show (sys_handler fail key ip s).whitelist = s.whitelist from rfl, ih.1] at hm
        exact absurd hm (List.not_mem_nil _)
  | sweep_step s fail now _ ih =>
      have h0 : Cleaner.clean_state fail now s = s := by
        unfold Cleaner.clean_state Cleaner.clean_ipset Cleaner.stale_ips
        rw [ih.1]
        rfl
      rw [h0]
      exact ih

/-- Witness for the amended C1 at a concrete reachable state. -/
theorem reachable_store_empty_witness :
    Reachable (sys_handler noFail none 5 ⟨[], []⟩)
    ∧ (sys_handler noFail none 5 ⟨[], []⟩).whitelist = [] :=
  ⟨Reachable.handler_step _ noFail none 5 Reachable.init,
    (reachable_store_empty _ (Reachable.handler_step _ noFail none 5 Reachable.init)).1⟩

/-- Claim C5 counterexample: two stale addresses, every external delete
failing.  The sweep's `try_for_each` stops at the first address: address 2
is stale but is never attempted (it is absent from the delete trace) and
survives the tick in both the store and the external set, while address
1's store entry is gone although its external delete failed. -/
theorem sweep_abort_on_failure_cex :
    Cleaner.stale_ips 400 [(1, 0), (2, 0)] = [1, 2]
    ∧ (Cleaner.clean_ipset (fun _ => true) 400 ⟨[(1, 0), (2, 0)], [1, 2]⟩).2.1 = [1]
    ∧ (2 : Nat) ∉ (Cleaner.clean_ipset (fun _ => true) 400 ⟨[(1, 0), (2, 0)], [1, 2]⟩).2.1
    ∧ (Cleaner.clean_state (fun _ => true) 400 ⟨[(1, 0), (2, 0)], [1, 2]⟩).ipset = [1, 2]
    ∧ ((2 : Nat), (0 : Nat))
        ∈ (Cleaner.clean_state (fun _ => true) 400 ⟨[(1, 0), (2, 0)], [1, 2]⟩).whitelist
    ∧ ((1 : Nat), (0 : Nat))
        ∉ (Cleaner.clean_state (fun _ => true) 400 ⟨[(1, 0), (2, 0)], [1, 2]⟩).whitelist := by
  decide

/-- Claim C5 amended: when the external delete fails for the first stale
address of a tick, the `try_for_each` short-circuits: only that address is
attempted, its store entry is removed while the external set is left
unchanged, and the remaining stale addresses are not attempted in that
tick; the sweep loop itself discards the tick's error and continues with
the next tick. -/
theorem sweep_failure_stops_but_loop_continues
    (fail : Nat → Bool) (now : Nat) (s : SysState) (ip : Nat) (rest : List Nat)
    (hstale : Cleaner.stale_ips now s.whitelist = ip :: rest)
    (hfail : fail ip = true) :
    (Cleaner.clean_ipset fail now s).2.1 = [ip]
    ∧ (Cleaner.clean_state fail now s).ipset = s.ipset
    ∧ (Cleaner.clean_state fail now s).whitelist
        = s.whitelist.filter (fun p => p.1 ≠ ip)
    ∧ ∀ (fail2 : Nat → Nat → Bool) (nows : List Nat) (s0 : SysState),
        Cleaner.task_ticks fail2 (now :: nows) s0
          = Cleaner.task_ticks fail2 nows (Cleaner.clean_state (fail2 now) now s0) := by
  refine ⟨?_, ?_, ?_, fun _ _ _ => rfl⟩ <;>
    simp only [Cleaner.clean_state, Cleaner.clean_ipset, hstale, Cleaner.remove_loop, hfail,
      if_true, reduceIte]

/-- Witness for the amended C5 at a concrete input. -/
theorem sweep_failure_stops_but_loop_continues_witness :
    Cleaner.stale_ips 400 [(7, 0)] = [7]
    ∧ (fun _ : Nat => true) 7 = true
    ∧ (Cleaner.clean_ipset (fun _ => true) 400 ⟨[(7, 0)], [7]⟩).2.1 = [7]
    ∧ (Cleaner.clean_state (fun _ => true) 400 ⟨[(7, 0)], [7]⟩).ipset = [7] :=
  ⟨by decide, rfl,
    (sweep_failure_stops_but_loop_continues (fun _ => true) 400 ⟨[(7, 0)], [7]⟩ 7 []
      (by decide) rfl).1,
    (sweep_failure_stops_but_loop_continues (fun _ => true) 400 ⟨[(7, 0)], [7]⟩ 7 []
      (by decide) rfl).2.1⟩

/-- Claim C6 counterexample: when the chain-flush step fails during
teardown, the later steps (chain delete, set flush, set destroy) are never
executed, and the shutdown path panics (`.unwrap()` on each step) instead
of continuing best-effort. -/
theorem teardown_halts_on_failure_cex :
    (shutdown_teardown (fun c => c = FwCall.flush_chain "filter" "MORTIS") "10000").2 = false
    ∧ (shutdown_teardown (fun c => c = FwCall.flush_chain "filter" "MORTIS") "10000").1
        = [FwCall.delete "filter" "INPUT" (jump_rule "10000" IPTABLES_CHAIN),
           FwCall.flush_chain "filter" IPTABLES_CHAIN]
    ∧ FwCall.delete_chain "filter" IPTABLES_CHAIN
        ∉ (shutdown_teardown (fun c => c = FwCall.flush_chain "filter" "MORTIS") "10000").1
    ∧ FwCall.set_destroy
        ∉ (shutdown_teardown (fun c => c = FwCall.flush_chain "filter" "MORTIS") "10000").1 := by
  decide

/-- Claim C6 amended: teardown attempts its steps in the claimed order —
delete the INPUT jump rule, flush the dedicated chain, delete the chain,
flush the set, destroy the set — and when no step fails all five execute
in that order; but the steps are not failure-isolated: every run's trace
is an in-order prefix of that sequence, because the first failing step
panics the shutdown path and the later steps are skipped. -/
theorem teardown_order_and_prefix :
    (∀ port : String, shutdown_teardown noFailFw port = (teardown_calls port, true))
    ∧ ∀ (fail : FwCall → Bool) (port : String),
        ∃ k : Nat, (shutdown_teardown fail port).1 = (teardown_calls port).take k := by
  constructor
  · intro port; rfl
  · intro fail port
    by_cases h1 : fail (FwCall.delete "filter" "INPUT" (jump_rule port IPTABLES_CHAIN))
    · exact ⟨1, by simp [shutdown_teardown, run_calls, clean_iptables_calls,
        clean_ipset_calls, teardown_calls, h1]⟩
    · by_cases h2 : fail (FwCall.flush_chain "filter" IPTABLES_CHAIN)
      · exact ⟨2, by simp [shutdown_teardown, run_calls, clean_iptables_calls,
          clean_ipset_calls, teardown_calls, h1, h2]⟩
      · by_cases h3 : fail (FwCall.delete_chain "filter" IPTABLES_CHAIN)
        · exact ⟨3, by simp [shutdown_teardown, run_calls, clean_iptables_calls,
            clean_ipset_calls, teardown_calls, h1, h2, h3]⟩
        · by_cases h4 : fail FwCall.set_flush
          · exact ⟨4, by simp [shutdown_teardown, run_calls, clean_iptables_calls,
              clean_ipset_calls, teardown_calls, h1, h2, h3, h4]⟩
          · by_cases h5 : fail FwCall.set_destroy
            · exact ⟨5, by simp [shutdown_teardown, run_calls, clean_iptables_calls,
                clean_ipset_calls, teardown_calls, h1, h2, h3, h4, h5]⟩
            · exact ⟨5, by simp [shutdown_teardown, run_calls, clean_iptables_calls,
                clean_ipset_calls, teardown_calls, h1, h2, h3, h4, h5]⟩

/-- Claim C9 counterexample: under the alternating interleaving of two
concurrent handler invocations for the fresh address 5, task 2's
membership `test` executes between task 1's `test` and `add` (the lock is
released between the calls), and two external `add` calls are issued — not
exactly one. -/
theorem concurrent_double_add_cex :
    (run_schedule 5 [true, false, true, false, true, false]).calls
      = [IpsetCall.test 5, IpsetCall.test 5, IpsetCall.add 5, IpsetCall.add 5]
    ∧ add_count 5 (run_schedule 5 [true, false, true, false, true, false]).calls = 2
    ∧ (run_schedule 5 [true, false, true, false, true, false]).members = [5] := by
  decide

/-- Claim C9 amended: the mutex serializes each individual external call
of `handler`, but it is released between the `test`, `del` and `add`
calls, so concurrent invocations interleave at call granularity.  Under
every schedule that lets two concurrent invocations for the same fresh
address run to completion (three slots each), two external `add` calls are
issued — not one — though the address still ends up a member of the
external set exactly once. -/
theorem interleaved_signals_two_adds
    (b1 b2 b3 b4 b5 b6 : Bool)
    (h : ([b1, b2, b3, b4, b5, b6].filter (fun b => b)).length = 3) :
    (run_schedule 5 [b1, b2, b3, b4, b5, b6]).p1 = TaskPhase.done
    ∧ (run_schedule 5 [b1, b2, b3, b4, b5, b6]).p2 = TaskPhase.done
    ∧ (run_schedule 5 [b1, b2, b3, b4, b5, b6]).members = [5]
    ∧ add_count 5 (run_schedule 5 [b1, b2, b3, b4, b5, b6]).calls = 2 := by
  revert h
  cases b1 <;> cases b2 <;> cases b3 <;> cases b4 <;> cases b5 <;> cases b6 <;> decide

/-- Witness for the amended C9 at a concrete schedule. -/
theorem interleaved_signals_two_adds_witness :
    ([true, true, true, false, false, false].filter (fun b => b)).length = 3
    ∧ add_count 5 (run_schedule 5 [true, true, true, false, false, false]).calls = 2 :=
  ⟨by decide,
    (interleaved_signals_two_adds true true true false false false (by decide)).2.2.2⟩

theorem remove_loop_whitelist_mem (ip t : Nat) :
    ∀ (ips : List Nat) (s : SysState),
      ((ip, t) ∈ (Cleaner.remove_loop (fun _ => false) ips s).1.whitelist
        ↔ (ip, t) ∈ s.whitelist ∧ ip ∉ ips) := by
  intro ips
  induction ips with
  | nil => intro s; simp [Cleaner.remove_loop]
  | cons ip0 rest ih =>
      intro s
      unfold Cleaner.remove_loop
      simp only [Bool.false_eq_true, if_false]
      rw [ih]
      simp only [List.mem_filter, List.mem_cons, not_or]
      constructor
      · rintro ⟨⟨hmem, hne⟩, hrest⟩
        exact ⟨hmem, by simpa using hne, hrest⟩
      · rintro ⟨hmem, hne, hrest⟩
        exact ⟨⟨hmem, by simpa using hne⟩, hrest⟩

theorem remove_loop_ipset_mem (x : Nat) :
    ∀ (ips : List Nat) (s : SysState),
      (x ∈ (Cleaner.remove_loop (fun _ => false) ips s).1.ipset
        ↔ x ∈ s.ipset ∧ x ∉ ips) := by
  intro ips
  induction ips with
  | nil => intro s; simp [Cleaner.remove_loop]
  | cons ip0 rest ih =>
      intro s
      unfold Cleaner.remove_loop
      simp only [Bool.false_eq_true, if_false]
      rw [ih]
      simp only [ipset_del, List.mem_filter, List.mem_cons, not_or]
      constructor
      · rintro ⟨⟨hmem, hne⟩, hrest⟩
        exact ⟨hmem, by simpa using hne, hrest⟩
      · rintro ⟨hmem, hne, hrest⟩
        exact ⟨⟨hmem, by simpa using hne⟩, hrest⟩

theorem keys_nodup_unique {wl : List (Nat × Nat)} (hnd : (wl.map Prod.fst).Nodup)
    {ip t t' : Nat} (h1 : (ip, t) ∈ wl) (h2 : (ip, t') ∈ wl) : t = t' := by
  induction wl with
  | nil => cases h1
  | cons p rest ih =>
      rw [List.map_cons, List.nodup_cons] at hnd
      rcases List.mem_cons.mp h1 with h1 | h1
      · rcases List.mem_cons.mp h2 with h2 | h2
        · rw [← h1] at h2; exact (congrArg Prod.snd h2).symm
        · exact absurd (List.mem_map_of_mem Prod.fst h2)
            (by rw [← h1] at hnd; exact hnd.1)
      · rcases List.mem_cons.mp h2 with h2 | h2
        · exact absurd (List.mem_map_of_mem Prod.fst h1)
            (by rw [← h2] at hnd; exact hnd.1)
        · exact ih hnd.2 h1 h2

theorem mem_stale_ips {now : Nat} {wl : List (Nat × Nat)} {x : Nat} :
    x ∈ Cleaner.stale_ips now wl ↔ ∃ t, (x, t) ∈ wl ∧ 300 < now - t := by
  unfold Cleaner.stale_ips
  simp only [List.mem_map, List.mem_filter, decide_eq_true_eq]
  constructor
  · rintro ⟨p, ⟨hp, hs⟩, rfl⟩
    exact ⟨p.2, by simpa using hp, hs⟩
  · rintro ⟨t, ht, hs⟩
    exact ⟨(x, t), ⟨ht, hs⟩, rfl⟩

theorem stale_ips_mem_of_entry {now : Nat} {wl : List (Nat × Nat)} {ip t : Nat}
    (hnd : (wl.map Prod.fst).Nodup) (hmem : (ip, t) ∈ wl) :
    ip ∈ Cleaner.stale_ips now wl ↔ 300 < now - t := by
  rw [mem_stale_ips]
  constructor
  · rintro ⟨t', ht', hs⟩
    rw [keys_nodup_unique hnd hmem ht']
    exact hs
  · intro hs; exact ⟨t, hmem, hs⟩

/-- Claim C8 (confirmed): the sweeper sleeps a fixed 60 seconds between
ticks, 60 < 300, and (for a store with unique keys, as a `HashMap` has,
and no external failures) a tick evicts an entry from the store and the
external set exactly when `now - lastSeen` is strictly greater than 300
seconds; an entry exactly 300 seconds old is retained. -/
theorem sweep_constants_and_stale_classification
    (now : Nat) (s : SysState) (ip t : Nat)
    (hnd : (s.whitelist.map Prod.fst).Nodup)
    (hmem : (ip, t) ∈ s.whitelist) :
    Cleaner.sweep_sleep_secs = 60
    ∧ Cleaner.sweep_sleep_secs < 300
    ∧ (∀ (f : Nat → Nat → Bool) (k : Nat) (s0 : SysState),
        Cleaner.task_run f k s0
          = Cleaner.task_ticks f ((List.range k).map (fun i => 60 * (i + 1))) s0)
    ∧ ((ip, t) ∈ (Cleaner.clean_state (fun _ => false) now s).whitelist ↔ ¬300 < now - t)
    ∧ (ip ∈ (Cleaner.clean_state (fun _ => false) now s).ipset
        ↔ ip ∈ s.ipset ∧ ¬300 < now - t)
    ∧ (now - t = 300 → (ip, t) ∈ (Cleaner.clean_state (fun _ => false) now s).whitelist) := by
  have hwl : (ip, t) ∈ (Cleaner.clean_state (fun _ => false) now s).whitelist
      ↔ ¬300 < now - t := by
    unfold Cleaner.clean_state Cleaner.clean_ipset
    rw [remove_loop_whitelist_mem, stale_ips_mem_of_entry hnd hmem]
    simp [hmem]
  have hips : ip ∈ (Cleaner.clean_state (fun _ => false) now s).ipset
      ↔ ip ∈ s.ipset ∧ ¬300 < now - t := by
    unfold Cleaner.clean_state Cleaner.clean_ipset
    rw [remove_loop_ipset_mem, stale_ips_mem_of_entry hnd hmem]
  refine ⟨rfl, by decide, fun _ _ _ => rfl, hwl, hips, fun h300 => ?_⟩
  rw [hwl, h300]
  omega

/-- Witness for C8 at a concrete input: at `now = 350` the entry last seen
at 0 (elapsed 350 > 300) is evicted and the entry last seen at 50
(elapsed exactly 300) is retained. -/
theorem sweep_constants_and_stale_classification_witness :
    (([((1 : Nat), (0 : Nat)), (2, 50)].map Prod.fst).Nodup
      ∧ ((2 : Nat), (50 : Nat)) ∈ [((1 : Nat), (0 : Nat)), (2, 50)])
    ∧ (((2 : Nat), (50 : Nat))
        ∈ (Cleaner.clean_state (fun _ => false) 350 ⟨[(1, 0), (2, 50)], [1, 2]⟩).whitelist
      ↔ ¬(300 : Nat) < 350 - 50) :=
  ⟨⟨by decide, by decide⟩,
    (sweep_constants_and_stale_classification 350 ⟨[(1, 0), (2, 50)], [1, 2]⟩ 2 50
      (by decide) (by decide)).2.2.2.1⟩

/-- Claim C7 (confirmed): in both setup variants, the dedicated chain
starts with the rule dropping UDP traffic from source ports
123, 53, 161, 3702, 19 regardless of membership; after it, members of the
allow-list set get an absent cap (`ACCEPT` in `src/main.rs`) or a
materially higher cap (150/sec in `src/firewall.rs`) while non-members
are subject to the strict 5/sec hashlimit; the last rule is the chain's
unconditional default disposition; and setup performs exactly one insert
into `INPUT`, at position 1, of the UDP jump rule for the protected
destination ports targeting the dedicated chain. -/
theorem firewall_policy_correct :
    (∀ port : String,
      (chain_rules IPTABLES_CHAIN (setup_iptables port)).head? = some sport_drop_rule
      ∧ (chain_rules Firewall.IPTABLES_CHAIN (Firewall.setup_iptables port)).head?
          = some sport_drop_rule)
    ∧ (∀ (port : String) (p : Packet), p.udp = true →
        sport_drop_rule.sports.contains p.src_port = true →
        eval_chain (chain_rules IPTABLES_CHAIN (setup_iptables port)) p = Target.drop
        ∧ eval_chain (chain_rules Firewall.IPTABLES_CHAIN (Firewall.setup_iptables port)) p
            = Target.drop)
    ∧ (∀ (port : String) (p : Packet), p.udp = true →
        sport_drop_rule.sports.contains p.src_port = false →
        (p.member = true →
          eval_chain (chain_rules IPTABLES_CHAIN (setup_iptables port)) p = Target.accept
          ∧ (p.rate ≤ 150 →
              eval_chain (chain_rules Firewall.IPTABLES_CHAIN (Firewall.setup_iptables port)) p
                = Target.ret)
          ∧ (150 < p.rate →
              eval_chain (chain_rules Firewall.IPTABLES_CHAIN (Firewall.setup_iptables port)) p
                = Target.drop))
        ∧ (p.member = false →
          (p.rate ≤ 5 →
            eval_chain (chain_rules IPTABLES_CHAIN (setup_iptables port)) p = Target.ret
            ∧ eval_chain (chain_rules Firewall.IPTABLES_CHAIN (Firewall.setup_iptables port)) p
                = Target.ret)
          ∧ (5 < p.rate →
            eval_chain (chain_rules IPTABLES_CHAIN (setup_iptables port)) p = Target.drop
            ∧ eval_chain (chain_rules Firewall.IPTABLES_CHAIN (Firewall.setup_iptables port)) p
                = Target.drop)))
    ∧ (∀ port : String,
        (chain_rules IPTABLES_CHAIN (setup_iptables port)).getLast?
          = some { target := Target.drop }
        ∧ (chain_rules Firewall.IPTABLES_CHAIN (Firewall.setup_iptables port)).getLast?
            = some { target := Target.ret })
    ∧ (∀ port : String,
        chain_inserts "INPUT" (setup_iptables port) = [(jump_rule port IPTABLES_CHAIN, 1)]
        ∧ chain_inserts "INPUT" (Firewall.setup_iptables port)
            = [(jump_rule port Firewall.IPTABLES_CHAIN, 1)]) := by
  refine ⟨fun port => ⟨rfl, rfl⟩, ?_, ?_, fun port => ⟨rfl, rfl⟩, fun port => ⟨rfl, rfl⟩⟩
  · intro port p hudp hsp
    have hsp2 : p.src_port = 123 ∨ p.src_port = 53 ∨ p.src_port = 161 ∨
        p.src_port = 3702 ∨ p.src_port = 19 := by
      have hsp' : List.contains [123, 53, 161, 3702, 19] p.src_port = true := hsp
      simpa using hsp'
    constructor <;>
      · rcases hsp2 with h | h | h | h | h <;>
          simp [chain_rules, setup_iptables, Firewall.setup_iptables, eval_chain,
            rule_matches, sport_drop_rule, hudp, h]
  · intro port p hudp hsp
    have hns : ¬p.src_port = 123 ∧ ¬p.src_port = 53 ∧ ¬p.src_port = 161 ∧
        ¬p.src_port = 3702 ∧ ¬p.src_port = 19 := by
      have hsp' : List.contains [123, 53, 161, 3702, 19] p.src_port = false := hsp
      simpa using hsp'
    constructor
    · intro hm
      refine ⟨?_, fun hrate => ?_, fun hrate => ?_⟩
      · simp [chain_rules, setup_iptables, eval_chain, rule_matches, sport_drop_rule,
          hudp, hns, hm]
      · simp [chain_rules, Firewall.setup_iptables, eval_chain, rule_matches, sport_drop_rule,
          hudp, hns, hm, Nat.not_lt.mpr hrate]
      · simp [chain_rules, Firewall.setup_iptables, eval_chain, rule_matches, sport_drop_rule,
          hudp, hns, hm, hrate]
    · intro hm
      refine ⟨fun hrate => ⟨?_, ?_⟩, fun hrate => ⟨?_, ?_⟩⟩
      · simp [chain_rules, setup_iptables, eval_chain, rule_matches, sport_drop_rule,
          hudp, hns, hm, hrate]
      · simp [chain_rules, Firewall.setup_iptables, eval_chain, rule_matches, sport_drop_rule,
          hudp, hns, hm, Nat.not_lt.mpr hrate]
      · simp [chain_rules, setup_iptables, eval_chain, rule_matches, sport_drop_rule,
          hudp, hns, hm, Nat.not_le.mpr hrate]
      · simp [chain_rules, Firewall.setup_iptables, eval_chain, rule_matches, sport_drop_rule,
          hudp, hns, hm, hrate]

/-- Witness for C7 at concrete packets. -/
theorem firewall_policy_correct_witness :
    ((⟨true, 123, false, 0⟩ : Packet).udp = true
      ∧ sport_drop_rule.sports.contains (⟨true, 123, false, 0⟩ : Packet).src_port = true
      ∧ eval_chain (chain_rules IPTABLES_CHAIN (setup_iptables "10000"))
          ⟨true, 123, false, 0⟩ = Target.drop)
    ∧ ((⟨true, 40000, true, 10 ^ 6⟩ : Packet).udp = true
      ∧ sport_drop_rule.sports.contains (⟨true, 40000, true, 10 ^ 6⟩ : Packet).src_port = false
      ∧ eval_chain (chain_rules IPTABLES_CHAIN (setup_iptables "10000"))
          ⟨true, 40000, true, 10 ^ 6⟩ = Target.accept) :=
  ⟨⟨rfl, by decide,
    (firewall_policy_correct.2.1 "10000" ⟨true, 123, false, 0⟩ rfl (by decide)).1⟩,
   ⟨rfl, by decide,
    ((firewall_policy_correct.2.2.1 "10000" ⟨true, 40000, true, 10 ^ 6⟩ rfl (by decide)).1
      rfl).1⟩⟩
